import Mathlib

/-!
Verification development for the bootstrap-and-recovery core of
`src/src/ripple/app/main/Application.cpp` (radard).

Shallow embedding conventions:
* side effects (logging, job submission, timer re-arm, cache sweeps,
  ledger installation) are recorded as explicit action lists, in the
  order the source emits them;
* `uint256` values are `Nat` (only zero-tests and equality matter here);
* external collaborators (SQL ledger index, `InboundLedger`, the time
  source, `STParsedJSONObject`) are parameters of the embedded
  functions, supplied through environment records.
-/

namespace Radard

/-! ## Sweep timer: `ApplicationImp::onDeadlineTimer` / `doSweep`
(Application.cpp lines 876-922). -/

/-- Observable effects of the sweep-timer firing and of the sweep pass
body.  The ten `sweep*` / `expire*` constructors are the cache-eviction
steps of `doSweep`, in source order. -/
inductive SweepAction where
  | logFatal
  | signalStop
  | submitSweep
  | sweepFullbelow
  | sweepMasterTransaction
  | sweepNodeStore
  | sweepLedgerMaster
  | sweepTempNodeCache
  | sweepValidations
  | sweepInboundLedgers
  | sweepAcceptedLedgerCache
  | sweepTreecache
  | expireCachedSLEs
  | rearmSweepTimer
  deriving DecidableEq, Repr

/-- The fixed free-space floor: `512 * 1024 * 1024` bytes
(Application.cpp line 893). -/
def sweepFloor : Nat := 512 * 1024 * 1024

/-- Model of `onDeadlineTimer`, sweep-timer branch (lines 884-900): probes
available space; if below the floor, logs fatal and calls
`signalStop()`; then (unconditionally — the `addJob` call at line 899
is not guarded by an `else`) submits one `jtSWEEP` job running
`doSweep`. -/
def onSweepTimer (avail : Nat) : List SweepAction :=
  (if avail < sweepFloor then [SweepAction.logFatal, SweepAction.signalStop]
   else [])
  ++ [SweepAction.submitSweep]

/-- The cache-eviction steps of `doSweep` (lines 909-918), in source
order: fullbelow, master transaction table, node store, ledger master,
temp node cache, validations, inbound ledgers, accepted-ledger cache,
tree cache, cached SLEs. -/
def sweepSteps : List SweepAction :=
  [SweepAction.sweepFullbelow,
   SweepAction.sweepMasterTransaction,
   SweepAction.sweepNodeStore,
   SweepAction.sweepLedgerMaster,
   SweepAction.sweepTempNodeCache,
   SweepAction.sweepValidations,
   SweepAction.sweepInboundLedgers,
   SweepAction.sweepAcceptedLedgerCache,
   SweepAction.sweepTreecache,
   SweepAction.expireCachedSLEs]

/-- Model of `doSweep` (lines 903-922): runs every eviction step, then — as its
last statement (line 921) — re-arms the sweep timer with the configured
interval. -/
def doSweep : List SweepAction :=
  sweepSteps ++ [SweepAction.rearmSweepTimer]

/-- C1 counterexample: with available space 511 MiB (below the 512 MiB
floor) the timer firing calls `signalStop()` *and still submits the
sweep pass* — `addJob(jtSWEEP, ...)` at line 899 is unconditional — so
the claim "no cache-eviction step of the sweep pass runs in that
firing" is false: the submitted pass runs every eviction step
(shutdown lets already-submitted sweep work run to completion). -/
theorem C1_low_space_still_submits_sweep :
    SweepAction.signalStop ∈ onSweepTimer (511 * 1024 * 1024)
    ∧ SweepAction.submitSweep ∈ onSweepTimer (511 * 1024 * 1024)
    ∧ (onSweepTimer (511 * 1024 * 1024)).count SweepAction.submitSweep = 1 := by
  decide

/-- C1 amended: every sweep-timer firing submits exactly one sweep
pass, whatever the available space; the fatal log and `signalStop()`
happen exactly when available space is below the 512 MiB floor, and at
or above the floor the firing consists of the single submission. -/
theorem C1_disk_guard_amended (avail : Nat) :
    (onSweepTimer avail).count SweepAction.submitSweep = 1
    ∧ (SweepAction.signalStop ∈ onSweepTimer avail ↔ avail < sweepFloor)
    ∧ (SweepAction.logFatal ∈ onSweepTimer avail ↔ avail < sweepFloor)
    ∧ (sweepFloor ≤ avail → onSweepTimer avail = [SweepAction.submitSweep]) := by
  unfold onSweepTimer
  by_cases h : avail < sweepFloor
  · simp [h]
  · simp [h, Nat.le_of_not_lt h]

/-- C1 amended, witness at 513 MiB (above the floor). -/
theorem C1_disk_guard_amended_witness :
    (onSweepTimer (513 * 1024 * 1024)).count SweepAction.submitSweep = 1
    ∧ (SweepAction.signalStop ∈ onSweepTimer (513 * 1024 * 1024)
        ↔ 513 * 1024 * 1024 < sweepFloor)
    ∧ (SweepAction.logFatal ∈ onSweepTimer (513 * 1024 * 1024)
        ↔ 513 * 1024 * 1024 < sweepFloor)
    ∧ (sweepFloor ≤ 513 * 1024 * 1024
        → onSweepTimer (513 * 1024 * 1024) = [SweepAction.submitSweep]) :=
  C1_disk_guard_amended (513 * 1024 * 1024)

/-- C2 counterexample: the timer is *not* re-armed before the eviction
steps of the submitted pass: inside the pass body every eviction step
strictly precedes the re-arm (the re-arm is `doSweep`'s last
statement, line 921), and the firing callback itself (space 513 MiB,
above the floor) emits no re-arm at all. -/
theorem C2_rearm_is_after_pass_body :
    (sweepSteps.all
      (fun s => doSweep.indexOf s < doSweep.indexOf SweepAction.rearmSweepTimer))
      = true
    ∧ doSweep.getLast? = some SweepAction.rearmSweepTimer
    ∧ SweepAction.rearmSweepTimer ∉ onSweepTimer (513 * 1024 * 1024) := by
  decide

/-- C2 amended: the sweep timer is re-armed at the end of the sweep
pass body, after all ten eviction steps have run — not in the firing
callback after submission: no firing, whatever the available space,
re-arms the timer. -/
theorem C2_rearm_amended (avail : Nat) :
    doSweep = sweepSteps ++ [SweepAction.rearmSweepTimer]
    ∧ SweepAction.rearmSweepTimer ∉ onSweepTimer avail := by
  refine ⟨rfl, ?_⟩
  unfold onSweepTimer
  by_cases h : avail < sweepFloor <;> simp [h]

/-- C2 amended, witness at 511 MiB. -/
theorem C2_rearm_amended_witness :
    doSweep = sweepSteps ++ [SweepAction.rearmSweepTimer]
    ∧ SweepAction.rearmSweepTimer ∉ onSweepTimer (511 * 1024 * 1024) :=
  C2_rearm_amended (511 * 1024 * 1024)

/-! ## `detail::AppFamily::missing_node` (lines 169-217)

The sequence-addressed overload coordinates through `maxSeq` guarded by
`maxSeqLock`.  Lock-protected critical sections are the atomic steps of
the embedding; the unlocked acquisition window is where other calls
interleave.  The state records `maxSeq` and the multiset of active
recovery loops (each with the local `seq` it read at its last lock
acquisition) — the embedding permits several loops so that "at most one
loop" is a proved property, not a modelling assumption. -/

/-- Shared state of one `AppFamily` store: `maxSeq` (0 = idle) and the
active recovery loops' last-read targets. -/
structure NodeState where
  maxSeq : Nat
  workers : List Nat
  deriving DecidableEq, Repr

/-- An atomic event: a `missing_node (seq)` call reaching its locked
entry section, or an active loop re-acquiring the lock at the bottom of
its `do`/`while` body. -/
inductive MNEvent where
  | notify (s : Nat)
  | check
  deriving DecidableEq, Repr

/-- One atomic step.  `notify s` is lines 175-203: under the lock, if
`maxSeq == 0` the caller claims ownership (`maxSeq = seq`, then the loop
head re-reads `seq = maxSeq` before unlocking, so it enters the unlocked
window with local target `s`); otherwise, if `maxSeq < seq`, the target
is raised and the call returns.  `check` is lines 195-197: a loop
re-acquires the lock; if `maxSeq` still equals its local `seq` the loop
exits (the source never resets `maxSeq` to 0 here), else it re-reads
`seq = maxSeq` and runs another unlocked acquisition attempt. -/
def mnStep (st : NodeState) : MNEvent → NodeState
  | MNEvent.notify s =>
      if st.maxSeq = 0 then
        { maxSeq := s, workers := s :: st.workers }
      else if st.maxSeq < s then
        { st with maxSeq := s }
      else st
  | MNEvent.check =>
      match st.workers with
      | [] => st
      | w :: ws =>
          if st.maxSeq = w then { st with workers := ws }
          else { st with workers := st.maxSeq :: ws }

/-- Run a trace of atomic events from the idle state (`maxSeq = 0`, no
loop). -/
def mnRun (es : List MNEvent) : NodeState :=
  es.foldl mnStep ⟨0, []⟩

/-- All sequence numbers notified in the trace are positive (a ledger
sequence is never 0; the source uses 0 as the idle sentinel). -/
def allPos (es : List MNEvent) : Bool :=
  es.all fun e =>
    match e with
    | MNEvent.notify s => decide (0 < s)
    | MNEvent.check => true

/-- The maximum sequence number notified so far (0 if none). -/
def maxNotified (es : List MNEvent) : Nat :=
  es.foldl
    (fun a e =>
      match e with
      | MNEvent.notify s => max a s
      | MNEvent.check => a)
    0

/-- State invariant: at most one active loop, and a nonzero remembered
target whenever a loop is active. -/
def mnInv (st : NodeState) : Prop :=
  st.workers.length ≤ 1 ∧ (st.workers ≠ [] → 0 < st.maxSeq)

lemma mnStep_notify_idle {st : NodeState} (h0 : st.maxSeq = 0) (s : Nat) :
    mnStep st (MNEvent.notify s) = { maxSeq := s, workers := s :: st.workers } := by
  simp [mnStep, h0]

lemma mnStep_notify_raise {st : NodeState} {s : Nat}
    (h0 : st.maxSeq ≠ 0) (hlt : st.maxSeq < s) :
    mnStep st (MNEvent.notify s) = { st with maxSeq := s } := by
  simp [mnStep, h0, hlt]

lemma mnStep_notify_keep {st : NodeState} {s : Nat}
    (h0 : st.maxSeq ≠ 0) (hlt : ¬ st.maxSeq < s) :
    mnStep st (MNEvent.notify s) = st := by
  simp [mnStep, h0, hlt]

lemma mnStep_check_idle {st : NodeState} (hw : st.workers = []) :
    mnStep st MNEvent.check = st := by
  simp [mnStep, hw]

lemma mnStep_check_exit {st : NodeState} {w : Nat} {ws : List Nat}
    (hw : st.workers = w :: ws) (h2 : st.maxSeq = w) :
    mnStep st MNEvent.check = { st with workers := ws } := by
  simp [mnStep, hw, h2]

lemma mnStep_check_go {st : NodeState} {w : Nat} {ws : List Nat}
    (hw : st.workers = w :: ws) (h2 : st.maxSeq ≠ w) :
    mnStep st MNEvent.check = { st with workers := st.maxSeq :: ws } := by
  simp [mnStep, hw, h2]

lemma mnStep_mnInv {st : NodeState} {e : MNEvent}
    (h : mnInv st) (hpos : ∀ s, e = MNEvent.notify s → 0 < s) :
    mnInv (mnStep st e) := by
  obtain ⟨hlen, hnz⟩ := h
  cases e with
  | notify s =>
      have hs : 0 < s := hpos s rfl
      by_cases h0 : st.maxSeq = 0
      · have hw : st.workers = [] := by
          by_contra hne
          have := hnz hne
          omega
        rw [mnStep_notify_idle h0]
        exact ⟨by simp [hw], fun _ => hs⟩
      · by_cases hlt : st.maxSeq < s
        · rw [mnStep_notify_raise h0 hlt]
          exact ⟨hlen, fun _ => hs⟩
        · rw [mnStep_notify_keep h0 hlt]
          exact ⟨hlen, hnz⟩
  | check =>
      cases hw : st.workers with
      | nil =>
          rw [mnStep_check_idle hw]
          exact ⟨hlen, hnz⟩
      | cons w ws =>
          have hpz : 0 < st.maxSeq := hnz (by rw [hw]; simp)
          have h1 : (w :: ws).length ≤ 1 := by rw [← hw]; exact hlen
          simp only [List.length_cons] at h1
          by_cases h2 : st.maxSeq = w
          · rw [mnStep_check_exit hw h2]
            exact ⟨by simp only [List.length]; omega, fun _ => hpz⟩
          · rw [mnStep_check_go hw h2]
            exact ⟨by simp only [List.length_cons]; omega, fun _ => hpz⟩

lemma mnFoldl_mnInv :
    ∀ (es : List MNEvent) (st : NodeState),
      mnInv st → allPos es = true → mnInv (es.foldl mnStep st)
  | [], st, h, _ => h
  | e :: es, st, h, hp => by
      rw [allPos, List.all_cons, Bool.and_eq_true] at hp
      refine mnFoldl_mnInv es _ (mnStep_mnInv h ?_) hp.2
      intro s hs
      subst hs
      simpa using hp.1

lemma mnRun_mnInv (es : List MNEvent) (hp : allPos es = true) :
    mnInv (mnRun es) :=
  mnFoldl_mnInv es ⟨0, []⟩ ⟨by simp, by simp⟩ hp

lemma mnStep_maxSeq (st : NodeState) (e : MNEvent) :
    (mnStep st e).maxSeq =
      match e with
      | MNEvent.notify s => max st.maxSeq s
      | MNEvent.check => st.maxSeq := by
  cases e with
  | notify s =>
      by_cases h0 : st.maxSeq = 0
      · simp [mnStep, h0]
      · by_cases hlt : st.maxSeq < s
        · simp [mnStep, h0, hlt, Nat.max_eq_right (Nat.le_of_lt hlt)]
        · simp [mnStep, h0, hlt, Nat.max_eq_left (Nat.le_of_not_lt hlt)]
  | check =>
      match hw : st.workers with
      | [] => simp [mnStep, hw]
      | w :: ws => by_cases h2 : st.maxSeq = w <;> simp [mnStep, hw, h2]

lemma mnFoldl_maxSeq :
    ∀ (es : List MNEvent) (st : NodeState),
      (es.foldl mnStep st).maxSeq =
        es.foldl
          (fun a e =>
            match e with
            | MNEvent.notify s => max a s
            | MNEvent.check => a)
          st.maxSeq
  | [], _ => rfl
  | e :: es, st => by
      rw [List.foldl_cons, List.foldl_cons, mnFoldl_maxSeq es, mnStep_maxSeq]

lemma mnRun_maxSeq (es : List MNEvent) :
    (mnRun es).maxSeq = maxNotified es :=
  mnFoldl_maxSeq es ⟨0, []⟩

/-- C3: over any interleaving of positive-sequence `missing_node` calls
and loop lock re-acquisitions, (1) at most one recovery loop is ever
active; (2) a call arriving while a loop is active only raises the
remembered target to `max(current, seq)` and spawns no loop; (3) the
remembered target never decreases at any step; (4) a loop exits exactly
when the remembered target is unchanged across its last unlocked
acquisition attempt, and at that point its target equals the maximum
sequence ever notified — never a stale one. -/
theorem C3_missing_node_coalescing (es : List MNEvent)
    (hp : allPos es = true) :
    (mnRun es).workers.length ≤ 1
    ∧ (∀ s, 0 < s → (mnRun es).workers ≠ [] →
        (mnStep (mnRun es) (MNEvent.notify s)).maxSeq
            = max (mnRun es).maxSeq s
        ∧ (mnStep (mnRun es) (MNEvent.notify s)).workers = (mnRun es).workers)
    ∧ (∀ e, (mnRun es).maxSeq ≤ (mnStep (mnRun es) e).maxSeq)
    ∧ (∀ w ws, (mnRun es).workers = w :: ws →
        ((mnStep (mnRun es) MNEvent.check).workers.length
            < (mnRun es).workers.length
          ↔ (mnRun es).maxSeq = w)
        ∧ ((mnRun es).maxSeq = w → w = maxNotified es)) := by
  obtain ⟨hlen, hnz⟩ := mnRun_mnInv es hp
  refine ⟨hlen, ?_, ?_, ?_⟩
  · intro s _ hne
    have h0 : (mnRun es).maxSeq ≠ 0 := by
      have := hnz hne
      omega
    constructor
    · rw [mnStep_maxSeq]
    · by_cases hlt : (mnRun es).maxSeq < s
      · rw [mnStep_notify_raise h0 hlt]
      · rw [mnStep_notify_keep h0 hlt]
  · intro e
    rw [mnStep_maxSeq]
    cases e with
    | notify s => exact Nat.le_max_left _ _
    | check => exact Nat.le_refl _
  · intro w ws hw
    constructor
    · by_cases h2 : (mnRun es).maxSeq = w
      · rw [mnStep_check_exit hw h2, hw]
        simp [h2]
      · rw [mnStep_check_go hw h2, hw]
        simp [h2]
    · intro h2
      rw [← h2, mnRun_maxSeq]

/-- Concrete trace used to witness C3. -/
def mnTrace0 : List MNEvent :=
  [MNEvent.notify 3, MNEvent.notify 5]

/-- C3 witness: the trace `notify 3; notify 5` (a loop claimed at 3,
then a concurrent call coalescing to 5). -/
theorem C3_missing_node_coalescing_witness :
    allPos mnTrace0 = true
    ∧ ((mnRun mnTrace0).workers.length ≤ 1
      ∧ (∀ s, 0 < s → (mnRun mnTrace0).workers ≠ [] →
          (mnStep (mnRun mnTrace0) (MNEvent.notify s)).maxSeq
              = max (mnRun mnTrace0).maxSeq s
          ∧ (mnStep (mnRun mnTrace0) (MNEvent.notify s)).workers
              = (mnRun mnTrace0).workers)
      ∧ (∀ e, (mnRun mnTrace0).maxSeq ≤ (mnStep (mnRun mnTrace0) e).maxSeq)
      ∧ (∀ w ws, (mnRun mnTrace0).workers = w :: ws →
          ((mnStep (mnRun mnTrace0) MNEvent.check).workers.length
              < (mnRun mnTrace0).workers.length
            ↔ (mnRun mnTrace0).maxSeq = w)
          ∧ ((mnRun mnTrace0).maxSeq = w → w = maxNotified mnTrace0))) :=
  ⟨by decide, C3_missing_node_coalescing mnTrace0 (by decide)⟩

/-! ## `ApplicationImp::serverOkay` (lines 1551-1590) -/

/-- Values of `NetworkOPs::OperatingMode`, ascending: DISCONNECTED, CONNECTED,
SYNCING, TRACKING, FULL.  Only the `omSYNCING` threshold is compared
here. -/
def omSYNCING : Nat := 2

/-- The application state `serverOkay` reads, one field per collaborator
call: `config().ELB_SUPPORT`, `isShutdown()`,
`getOPs().isNeedNetworkLedger()`, `getOPs().getOperatingMode()`,
`getLedgerMaster().isCaughtUp(reason)` (result plus the reason string it
writes on failure — `LedgerMaster` is an external collaborator),
`getFeeTrack().isLoadedLocal()`, `getOPs().isAmendmentBlocked()`. -/
structure AppHealth where
  elbSupport : Bool
  shutdown : Bool
  needNetworkLedger : Bool
  operatingMode : Nat
  caughtUp : Bool
  caughtUpReason : String
  loadedLocal : Bool
  amendmentBlocked : Bool
  deriving DecidableEq, Repr

/-- Model of `serverOkay` (lines 1551-1590), as a pure function of the read
state and the in-out `reason` string: returns the predicate result and
the final value of `reason`.  The function reads state and writes only
its `reason` argument, so purity is by construction. -/
def serverOkay (h : AppHealth) (reason : String) : Bool × String :=
  if h.elbSupport = false then (true, reason)
  else if h.shutdown then (false, "Server is shutting down")
  else if h.needNetworkLedger then (false, "Not synchronized with network yet")
  else if h.operatingMode < omSYNCING then (false, "Not synchronized with network")
  else if h.caughtUp = false then (false, h.caughtUpReason)
  else if h.loadedLocal then (false, "Too much load")
  else if h.amendmentBlocked then (false, "Server version too old")
  else (true, reason)

/-- The health predicate exactly as the specification words it (claim
C8's check order, first failing reason, true when all pass), for
comparison with the source-derived `serverOkay`. -/
def serverOkaySpecOrder (h : AppHealth) (reason : String) : Bool × String :=
  if h.shutdown then (false, "Server is shutting down")
  else if h.needNetworkLedger then (false, "Not synchronized with network yet")
  else if h.operatingMode < omSYNCING then (false, "Not synchronized with network")
  else if h.caughtUp = false then (false, h.caughtUpReason)
  else if h.loadedLocal then (false, "Too much load")
  else if h.amendmentBlocked then (false, "Server version too old")
  else (true, reason)

/-- C8: with the ELB_SUPPORT gate enabled (the gate itself is claim
C9), `serverOkay` is exactly the specification's check sequence — not
shut down, not waiting for a network ledger, operating mode at least
`omSYNCING`, ledger-range continuity (`isCaughtUp`), local load, not
amendment-blocked, in that order, reporting the first failing reason —
and when every check passes it returns true leaving `reason`
untouched.  It is a pure function of the read state. -/
theorem C8_serverOkay_check_order (h : AppHealth) (reason : String)
    (helb : h.elbSupport = true) :
    serverOkay h reason = serverOkaySpecOrder h reason
    ∧ ((serverOkay h reason).1 = true → (serverOkay h reason).2 = reason) := by
  constructor
  · simp [serverOkay, serverOkaySpecOrder, helb]
  · simp only [serverOkay, helb]
    split_ifs <;> simp

/-- A fully healthy state with ELB support enabled, for the C8
witness. -/
def healthyApp : AppHealth :=
  { elbSupport := true, shutdown := false, needNetworkLedger := false,
    operatingMode := 4, caughtUp := true, caughtUpReason := "",
    loadedLocal := false, amendmentBlocked := false }

/-- C8 witness: the healthy state with ELB enabled. -/
theorem C8_serverOkay_check_order_witness :
    healthyApp.elbSupport = true
    ∧ (serverOkay healthyApp "ok" = serverOkaySpecOrder healthyApp "ok"
      ∧ ((serverOkay healthyApp "ok").1 = true
          → (serverOkay healthyApp "ok").2 = "ok")) :=
  ⟨rfl, C8_serverOkay_check_order healthyApp "ok" rfl⟩

/-- C9: with `ELB_SUPPORT` disabled the function returns true at once
(line 1553-1554), evaluating no health check and leaving the reason
string unchanged, whatever the rest of the state says. -/
theorem C9_serverOkay_elb_disabled (h : AppHealth) (reason : String)
    (helb : h.elbSupport = false) :
    serverOkay h reason = (true, reason) := by
  simp [serverOkay, helb]

/-- A maximally unhealthy state (shut down, unsynchronized, overloaded,
amendment-blocked) with ELB support disabled, for the C9 witness. -/
def unhealthyNoElb : AppHealth :=
  { elbSupport := false, shutdown := true, needNetworkLedger := true,
    operatingMode := 0, caughtUp := false, caughtUpReason := "gap",
    loadedLocal := true, amendmentBlocked := true }

/-- C9 witness: even the maximally unhealthy state reports healthy when
ELB support is off. -/
theorem C9_serverOkay_elb_disabled_witness :
    unhealthyNoElb.elbSupport = false
    ∧ serverOkay unhealthyNoElb "r" = (true, "r") :=
  ⟨rfl, C9_serverOkay_elb_disabled unhealthyNoElb "r" rfl⟩

/-! ## JSON documents and the load-by-file branch of
`ApplicationImp::loadOldLedger` (lines 1293-1402).

`Json::Value` is modelled structurally; only the accessors this code
uses are embedded, with the library's defaulting behaviour (`operator[]`
on a missing key yields null, `asString` of null is the empty string,
`asUInt`/`asBool` of a non-matching value default to 0/false). -/

/-- A JSON value. -/
inductive Json where
  | obj (fields : List (String × Json))
  | arr (elems : List Json)
  | str (s : String)
  | num (n : Nat)
  | jbool (b : Bool)
  | null

/-- Member lookup on an object; `none` on non-objects or missing keys. -/
def Json.getMember : Json → String → Option Json
  | Json.obj fields, key => fields.lookup key
  | _, _ => none

/-- Model of `Json::Value::isMember`. -/
def Json.isMember (j : Json) (key : String) : Bool :=
  (j.getMember key).isSome

/-- Model of `operator[]` on a const value: the member, or null when absent. -/
def Json.getOrNull (j : Json) (key : String) : Json :=
  (j.getMember key).getD Json.null

/-- Model of `asUInt`: the numeric value of a number, 0 otherwise. -/
def Json.asUInt : Json → Nat
  | Json.num n => n
  | _ => 0

/-- Model of `asString`: the string value, "" for null and other kinds. -/
def Json.asString : Json → String
  | Json.str s => s
  | _ => ""

/-- Model of `asBool`: the boolean value, false otherwise. -/
def Json.asBool : Json → Bool
  | Json.jbool b => b
  | _ => false

/-- Model of `removeMember`: drop the named member of an object (JSON object
keys are unique). -/
def Json.removeMember : Json → String → Json
  | Json.obj fields, key => Json.obj (fields.filter fun p => p.1 ≠ key)
  | j, _ => j

/-- Model of `isArray`. -/
def Json.isArray : Json → Bool
  | Json.arr _ => true
  | _ => false

/-- Lines 1308-1314: accept a ledger wrapped under a "result" key
and/or a "ledger" key — unwrap each, in that order, when present. -/
def unwrapLedgerJson (j : Json) : Json :=
  let j1 := if j.isMember "result" then j.getOrNull "result" else j
  if j1.isMember "ledger" then j1.getOrNull "ledger" else j1

/-- Value of one hexadecimal digit. -/
def hexDigitVal (c : Char) : Option Nat :=
  if c.isDigit then some (c.toNat - 48)
  else if ('a' ≤ c ∧ c ≤ 'f') then some (c.toNat - 87)
  else if ('A' ≤ c ∧ c ≤ 'F') then some (c.toNat - 55)
  else none

/-- Value of the leading hexadecimal run of a character list. -/
def hexRunVal : List Char → Nat → Nat
  | [], acc => acc
  | c :: cs, acc =>
      match hexDigitVal c with
      | some d => hexRunVal cs (acc * 16 + d)
      | none => acc

/-- Model of `uint256::SetHex` on the strings this path feeds it (bare
hexadecimal, at most 64 digits): the value of the leading hex-digit
run, as a 256-bit quantity; an empty or non-hex string yields zero. -/
def setHex (s : String) : Nat :=
  hexRunVal s.data 0 % 2 ^ 256

/-- Accumulated state of the accountState entry loop (lines
1368-1392): installed ledger entries keyed by parsed index, in
insertion order, plus the two warning counters ("Invalid entry in
ledger" for a failed parse or zero index, "Couldn't add serialized
ledger" for an `addSLE` failure). -/
structure EntryLoop where
  entries : List (Nat × Json)
  invalidWarns : Nat
  addFailWarns : Nat

/-- The parsed `index` member of an entry (lines 1372-1373). -/
def entryIndexVal (e : Json) : Nat :=
  setHex ((e.getOrNull "index").asString)

/-- An entry is accepted when `STParsedJSONObject` (external, modelled
by the `parseSLE` parameter) produces an object from the entry minus
its `index` member, and the parsed index is nonzero (line 1379). -/
def entryValid (parseSLE : Json → Bool) (e : Json) : Bool :=
  parseSLE (e.removeMember "index") && decide (entryIndexVal e ≠ 0)

/-- One iteration of the entry loop.  `addSLE` (`Ledger::addSLE`, a
Merkle-tree insertion external to this file) fails exactly when an item
with the same key is already present. -/
def loadEntriesStep (parseSLE : Json → Bool) (st : EntryLoop) (e : Json) :
    EntryLoop :=
  if entryValid parseSLE e then
    let uIndex := entryIndexVal e
    if st.entries.any fun p => p.1 = uIndex then
      { st with addFailWarns := st.addFailWarns + 1 }
    else
      { st with entries := st.entries ++ [(uIndex, e.removeMember "index")] }
  else
    { st with invalidWarns := st.invalidWarns + 1 }

/-- The whole entry loop over the accountState array. -/
def loadEntries (parseSLE : Json → Bool) (items : List Json) : EntryLoop :=
  items.foldl (loadEntriesStep parseSLE) ⟨[], 0, 0⟩

/-- External collaborators of the file branch: `STParsedJSONObject`
(success predicate on the entry body) and the time source's close time
read at line 1318. -/
structure FileEnv where
  parseSLE : Json → Bool
  closeTimeNow : Nat

/-- The ledger data assembled from a JSON dump (lines 1317-1399):
metadata (with its defaults) plus the entry-loop result.  `setClosed`,
`flushDirty` and `setAccepted` are state marks on the constructed
ledger. -/
structure FileLedger where
  seq : Nat
  closeTime : Nat
  closeTimeResolution : Nat
  closeTimeEstimated : Bool
  totalDrops : Nat
  totalDropsVBC : Nat
  loopResult : EntryLoop

/-- Outcome of the file branch: a built ledger, the fatal "State nodes
must be an array" path (which leaves `loadLedger` null), or a
`boost::bad_lexical_cast` escaping from `lexicalCastThrow` on a supply
counter (caught at line 1542). -/
inductive FileLoadOutcome where
  | ok (fl : FileLedger)
  | notArray
  | castThrow

/-- Build the ledger once the entry-array value is known (line 1358's
`isArray` check, then the construction and entry loop). -/
def buildFromEntryArr (env : FileEnv) (a : Json) (seq closeTime res : Nat)
    (est : Bool) (drops dropsVBC : Nat) : FileLoadOutcome :=
  match a with
  | Json.arr items =>
      FileLoadOutcome.ok
        { seq := seq, closeTime := closeTime, closeTimeResolution := res,
          closeTimeEstimated := est, totalDrops := drops,
          totalDropsVBC := dropsVBC,
          loopResult := loadEntries env.parseSLE items }
  | _ => FileLoadOutcome.notArray

/-- The file branch (lines 1308-1400), starting from the parsed JSON
document (the unopenable-file and unparsable-JSON cases, lines
1296-1305, leave `loadLedger` null like the not-an-array case).
Defaults: sequence 1, close time = the time source's current close
time, resolution 30, not estimated, zero supply counters.  When an
"accountState" member exists the sibling metadata keys override the
defaults and the member becomes the entry array; otherwise the
document itself must be the entry array. -/
def loadFromFile (env : FileEnv) (doc : Json) : FileLoadOutcome :=
  let j := unwrapLedgerJson doc
  if j.isMember "accountState" then
    let seq := if j.isMember "ledger_index" then (j.getOrNull "ledger_index").asUInt else 1
    let closeTime := if j.isMember "close_time" then (j.getOrNull "close_time").asUInt else env.closeTimeNow
    let res := if j.isMember "close_time_resolution" then (j.getOrNull "close_time_resolution").asUInt else 30
    let est := if j.isMember "close_time_estimated" then (j.getOrNull "close_time_estimated").asBool else false
    let drops? := if j.isMember "total_coins" then ((j.getOrNull "total_coins").asString).toNat? else some 0
    let dropsVBC? := if j.isMember "total_coinsVBC" then ((j.getOrNull "total_coinsVBC").asString).toNat? else some 0
    match drops?, dropsVBC? with
    | some drops, some dropsVBC =>
        buildFromEntryArr env (j.getOrNull "accountState") seq closeTime res est drops dropsVBC
    | _, _ => FileLoadOutcome.castThrow
  else
    buildFromEntryArr env j 1 env.closeTimeNow 30 false 0 0

/-! ## `ApplicationImp::getLastFullLedger` (lines 1240-1284) and the
rest of `loadOldLedger` (lines 1286-1549). -/

/-- The header fields of a loaded ledger that this code reads.  `hash`
is `getHash()`, the recomputed hash of the loaded tree. -/
structure LedgerInfo where
  seq : Nat
  hash : Nat
  parentHash : Nat
  accountHash : Nat
  closeTime : Nat
  closeFlags : Nat
  deriving DecidableEq, Repr

/-- One item of a ledger's transaction map: the transaction id (the
map key) and its `sfTransactionIndex` field, the original in-ledger
index. -/
structure MTx where
  txID : Nat
  txIndex : Nat
  deriving DecidableEq, Repr

/-- A loaded ledger, abstracted to what this code inspects: header,
the result of `walkLedger` (Merkle tree fully walkable, no missing
nodes), the result of `assertSane` (structural sanity), and the
transaction map's items in iteration order. -/
structure MLedger where
  info : LedgerInfo
  walkOk : Bool
  sane : Bool
  txs : List MTx
  deriving DecidableEq, Repr

/-- External collaborators of the identifier branches:
`loadLedgerHelper` on the highest-sequence row (the ledger plus the
stored hash column), `loadByHash`, the `InboundLedger::checkLocal` /
`getLedger` fallback, `loadByIndex`, the file-branch collaborators,
and the external `Ledger`/SHAMap construction turning a parsed dump
into a ledger. -/
structure LoadEnv where
  lastFull : Option (MLedger × Nat)
  byHash : Nat → Option MLedger
  checkLocal : Nat → Option MLedger
  byIndex : Nat → Option MLedger
  fileEnv : FileEnv
  mkFileLedger : FileLedger → MLedger

/-- Model of `getLastFullLedger` (lines 1240-1284): loads the highest-sequence
persisted ledger; null result stays null (a `SHAMapMissingNode` throw
from the helper, caught at line 1278, is modelled as `lastFull = none`);
the ledger is marked closed/immutable (state marks); if the recomputed
`getHash()` differs from the stored hash column the ledger is discarded
(logged, `assert(false)` is a no-op in release builds) and null is
returned. -/
def getLastFullLedger (env : LoadEnv) : Option MLedger :=
  match env.lastFull with
  | none => none
  | some (l, storedHash) =>
      if l.info.hash ≠ storedHash then none else some l

/-- The parsed `ledgerID`/`isFileName` argument pair of `loadOldLedger`
(lines 1293, 1404, 1408, 1425): a filesystem path (here: its parsed
JSON document), empty/"latest", a 64-character hexadecimal hash, or a
decimal sequence number (the decimal parse at line 1427 is reflected in
the `Nat` payload). -/
inductive LedgerID where
  | file (doc : Json)
  | latest
  | viaHash (h : Nat)
  | viaSeq (n : Nat)

/-- The replay package (`LedgerReplay`): the ledger being replayed, its
original close metadata, and the transaction mapping. -/
structure ReplayPkg where
  prevLedger : MLedger
  closeTime : Nat
  closeFlags : Nat
  txns : List (Nat × Nat)
  deriving DecidableEq, Repr

/-- Modelled from the spec: `LedgerReplay::txns_` — declared outside
this source file — is an ordered `std::map` from original transaction
index to transaction ("ordered mapping from original transaction index
to transaction content"; "transaction order is the original in-ledger
index, never insertion order").  `emplace` inserts in key order and
keeps the existing entry when the key is already present.  The payload
is the transaction id. -/
def mapEmplace (k v : Nat) : List (Nat × Nat) → List (Nat × Nat)
  | [] => [(k, v)]
  | (k', v') :: rest =>
      if k < k' then (k, v) :: (k', v') :: rest
      else if k = k' then (k', v') :: rest
      else (k', v') :: mapEmplace k v rest

/-- Observable effects of `loadOldLedger` beyond its boolean result. -/
inductive LoadAction where
  | logFatal (msg : String)
  | logInfo (msg : String)
  | setLedgerRangePresent (lo hi : Nat)
  | makeOpenView (parentHash : Nat)
  | switchLCL (h : Nat)
  | forceValid (h : Nat)
  | setLastCloseTime (t : Nat)
  | openLedgerEmplace (h : Nat)
  | forceValidity (txID : Nat)
  | rawTxInsert (txID : Nat)
  | takeReplay (pkg : ReplayPkg)
  deriving DecidableEq, Repr

/-- Stage 1 (lines 1293-1434): obtain `loadLedger` from the selected
source.  `Except.error` models an exception escaping to the handlers at
lines 1537-1546 (`boost::bad_lexical_cast` from the supply counters of
the file branch). -/
def loadStage1 (env : LoadEnv) :
    LedgerID → Except (List LoadAction) (Option MLedger × List LoadAction)
  | LedgerID.file doc =>
      match loadFromFile env.fileEnv doc with
      | FileLoadOutcome.ok fl => Except.ok (some (env.mkFileLedger fl), [])
      | FileLoadOutcome.notArray =>
          Except.ok (none, [LoadAction.logFatal "State nodes must be an array"])
      | FileLoadOutcome.castThrow =>
          Except.error [LoadAction.logFatal "Ledger specified is not valid"]
  | LedgerID.latest => Except.ok (getLastFullLedger env, [])
  | LedgerID.viaHash h =>
      match env.byHash h with
      | some l => Except.ok (some l, [])
      | none => Except.ok (env.checkLocal h, [])
  | LedgerID.viaSeq n => Except.ok (env.byIndex n, [])

/-- Stage 2 (lines 1436-1464): in replay mode the designated ledger
becomes `replayLedger` and `loadLedger` is re-bound to its parent
(persisted lookup, then the `InboundLedger::checkLocal` fallback);
returns the ledger submitted to the validation gate paired with the
replay ledger, or `none` when the parent is missing. -/
def loadStage2 (env : LoadEnv) (rp : Bool) (l0 : MLedger) :
    Option (MLedger × Option MLedger) :=
  if rp then
    match env.byHash l0.info.parentHash with
    | some p => some (p, some l0)
    | none =>
        match env.checkLocal l0.info.parentHash with
        | some p => some (p, some l0)
        | none => none
  else some (l0, none)

/-- The ledger the validation gate at lines 1470-1489 is evaluated on
(after the replay parent substitution), when execution reaches the
gate. -/
def gateLedger (env : LoadEnv) (lid : LedgerID) (rp : Bool) :
    Option MLedger :=
  match loadStage1 env lid with
  | Except.error _ => none
  | Except.ok (none, _) => none
  | Except.ok (some l0, _) => (loadStage2 env rp l0).map Prod.fst

/-- The installation effects (lines 1491-1499), in source order:
mark the ledger range present, build the open view on the loaded
ledger stamped with the current close time, switch the last-closed
ledger, force it valid, forward the close time, install the open
ledger. -/
def installActs (l : MLedger) : List LoadAction :=
  [LoadAction.setLedgerRangePresent l.info.seq l.info.seq,
   LoadAction.makeOpenView l.info.hash,
   LoadAction.switchLCL l.info.hash,
   LoadAction.forceValid l.info.hash,
   LoadAction.setLastCloseTime l.info.closeTime,
   LoadAction.openLedgerEmplace l.info.hash]

/-- The per-transaction effects of the replay branch (lines
1512-1532): each transaction is marked `Validity::SigGoodOnly` in the
hash router and raw-inserted into the open ledger. -/
def replayTxActs (txs : List MTx) : List LoadAction :=
  txs.foldl
    (fun acc tx =>
      acc ++ [LoadAction.forceValidity tx.txID, LoadAction.rawTxInsert tx.txID])
    []

/-- The replay package assembled at lines 1506-1524. -/
def buildReplayPkg (rl : MLedger) : ReplayPkg :=
  { prevLedger := rl,
    closeTime := rl.info.closeTime,
    closeFlags := rl.info.closeFlags,
    txns := rl.txs.foldl (fun m tx => mapEmplace tx.txIndex tx.txID m) [] }

/-- Model of `loadOldLedger` (lines 1286-1549): resolve the ledger (stage 1);
fatal if none; in replay mode swap to the parent (stage 2, fatal if
the parent is missing); `setClosed()`; the validation gate — nonzero
account-state root, fully walkable tree, structural sanity — each
failure logged fatal and returning false before any installation;
then the installation effects; and in replay mode the transaction
marking/insertion loop followed by the handoff of the replay package
to the ledger master. -/
def loadOldLedger (env : LoadEnv) (lid : LedgerID) (rp : Bool) :
    Bool × List LoadAction :=
  match loadStage1 env lid with
  | Except.error acts => (false, acts)
  | Except.ok (opt, acts0) =>
    match opt with
    | none =>
        (false, acts0 ++ [LoadAction.logFatal "No Ledger found from ledgerID"])
    | some l0 =>
      match loadStage2 env rp l0 with
      | none =>
          (false, acts0 ++ [LoadAction.logInfo "Loading parent ledger",
            LoadAction.logFatal "Replay ledger missing/damaged"])
      | some (lled, replayLedger?) =>
        if lled.info.accountHash = 0 then
          (false, acts0 ++ [LoadAction.logFatal "Ledger is empty"])
        else if lled.walkOk = false then
          (false, acts0 ++ [LoadAction.logFatal "Ledger is missing nodes"])
        else if lled.sane = false then
          (false, acts0 ++ [LoadAction.logFatal "Ledger is not sane"])
        else
          match replayLedger? with
          | none => (true, acts0 ++ installActs lled)
          | some rl =>
              (true, acts0 ++ installActs lled ++ replayTxActs rl.txs
                ++ [LoadAction.takeReplay (buildReplayPkg rl)])

lemma loadStage1_acts (env : LoadEnv) (lid : LedgerID) (opt : Option MLedger)
    (acts0 : List LoadAction)
    (h : loadStage1 env lid = Except.ok (opt, acts0)) :
    acts0 = [] ∨ acts0 = [LoadAction.logFatal "State nodes must be an array"] := by
  cases lid with
  | file doc =>
      simp only [loadStage1] at h
      cases hf : loadFromFile env.fileEnv doc <;> rw [hf] at h <;> simp_all
  | latest =>
      simp only [loadStage1] at h
      simp_all
  | viaHash hh =>
      simp only [loadStage1] at h
      cases hb : env.byHash hh <;> rw [hb] at h <;> simp_all
  | viaSeq n =>
      simp only [loadStage1] at h
      simp_all

lemma no_install_in_logs (acts0 : List LoadAction)
    (hacts : acts0 = []
      ∨ acts0 = [LoadAction.logFatal "State nodes must be an array"])
    (m : String) :
    (∀ h, LoadAction.switchLCL h ∉ acts0 ++ [LoadAction.logFatal m])
    ∧ (∀ h, LoadAction.openLedgerEmplace h ∉ acts0 ++ [LoadAction.logFatal m]) := by
  rcases hacts with rfl | rfl <;> exact ⟨fun h => by simp, fun h => by simp⟩

/-- C4: whenever execution reaches the validation gate with a ledger
whose account-state root hash is zero, or whose Merkle tree is not
fully walkable, or which fails the structural sanity check, the load
returns failure and performs no installation (no last-closed-ledger
switch, no open-view installation); conversely, a last-closed-ledger
switch happens only when all three checks passed — the checks precede
installation. -/
theorem C4_validation_gate (env : LoadEnv) (lid : LedgerID) (rp : Bool)
    (l : MLedger) (hg : gateLedger env lid rp = some l) :
    ((l.info.accountHash = 0 ∨ l.walkOk = false ∨ l.sane = false) →
      (loadOldLedger env lid rp).1 = false
      ∧ (∀ h, LoadAction.switchLCL h ∉ (loadOldLedger env lid rp).2)
      ∧ (∀ h, LoadAction.openLedgerEmplace h ∉ (loadOldLedger env lid rp).2))
    ∧ ((∃ h, LoadAction.switchLCL h ∈ (loadOldLedger env lid rp).2) →
        l.info.accountHash ≠ 0 ∧ l.walkOk = true ∧ l.sane = true) := by
  cases h1 : loadStage1 env lid with
  | error acts => simp [gateLedger, h1] at hg
  | ok r =>
    obtain ⟨opt, acts0⟩ := r
    have hacts := loadStage1_acts env lid opt acts0 h1
    cases opt with
    | none => simp [gateLedger, h1] at hg
    | some l0 =>
      cases h2 : loadStage2 env rp l0 with
      | none => simp [gateLedger, h1, h2] at hg
      | some pr =>
        obtain ⟨lled, orl⟩ := pr
        have hl : lled = l := by simpa [gateLedger, h1, h2] using hg
        subst hl
        simp only [loadOldLedger, h1, h2]
        by_cases ha : lled.info.accountHash = 0
        · rw [if_pos ha]
          refine ⟨fun _ => ⟨rfl, (no_install_in_logs acts0 hacts _).1,
            (no_install_in_logs acts0 hacts _).2⟩, ?_⟩
          rintro ⟨h, hmem⟩
          exact absurd hmem ((no_install_in_logs acts0 hacts _).1 h)
        · rw [if_neg ha]
          by_cases hw : lled.walkOk = false
          · rw [if_pos hw]
            refine ⟨fun _ => ⟨rfl, (no_install_in_logs acts0 hacts _).1,
              (no_install_in_logs acts0 hacts _).2⟩, ?_⟩
            rintro ⟨h, hmem⟩
            exact absurd hmem ((no_install_in_logs acts0 hacts _).1 h)
          · rw [if_neg hw]
            by_cases hs : lled.sane = false
            · rw [if_pos hs]
              refine ⟨fun _ => ⟨rfl, (no_install_in_logs acts0 hacts _).1,
                (no_install_in_logs acts0 hacts _).2⟩, ?_⟩
              rintro ⟨h, hmem⟩
              exact absurd hmem ((no_install_in_logs acts0 hacts _).1 h)
            · rw [if_neg hs]
              have hwT : lled.walkOk = true := by
                cases hb : lled.walkOk
                · exact absurd hb hw
                · rfl
              have hsT : lled.sane = true := by
                cases hb : lled.sane
                · exact absurd hb hs
                · rfl
              constructor
              · intro hbad
                rcases hbad with hb | hb | hb
                · exact absurd hb ha
                · exact absurd hb hw
                · exact absurd hb hs
              · intro _
                exact ⟨ha, hwT, hsT⟩

/-- A gate input whose Merkle tree is not fully walkable, for the C4
witness. -/
def unwalkableLedger : MLedger where
  info := { seq := 3, hash := 11, parentHash := 4, accountHash := 6, closeTime := 50, closeFlags := 0 }
  walkOk := false
  sane := true
  txs := []

/-- An environment that resolves sequence 3 to `unwalkableLedger`. -/
def unwalkableEnv : LoadEnv :=
  { lastFull := none,
    byHash := fun _ => none,
    checkLocal := fun _ => none,
    byIndex := fun n => if n = 3 then some unwalkableLedger else none,
    fileEnv := { parseSLE := fun _ => false, closeTimeNow := 0 },
    mkFileLedger := fun _ => unwalkableLedger }

/-- C4 witness: loading sequence 3 reaches the gate with
`unwalkableLedger`. -/
theorem C4_validation_gate_witness :
    ((unwalkableLedger.info.accountHash = 0 ∨ unwalkableLedger.walkOk = false
        ∨ unwalkableLedger.sane = false) →
      (loadOldLedger unwalkableEnv (LedgerID.viaSeq 3) false).1 = false
      ∧ (∀ h, LoadAction.switchLCL h
          ∉ (loadOldLedger unwalkableEnv (LedgerID.viaSeq 3) false).2)
      ∧ (∀ h, LoadAction.openLedgerEmplace h
          ∉ (loadOldLedger unwalkableEnv (LedgerID.viaSeq 3) false).2))
    ∧ ((∃ h, LoadAction.switchLCL h
          ∈ (loadOldLedger unwalkableEnv (LedgerID.viaSeq 3) false).2) →
        unwalkableLedger.info.accountHash ≠ 0
        ∧ unwalkableLedger.walkOk = true ∧ unwalkableLedger.sane = true) :=
  C4_validation_gate unwalkableEnv (LedgerID.viaSeq 3) false unwalkableLedger rfl

/-- C5: when the highest-sequence persisted ledger's recomputed hash
differs from its stored hash, `getLastFullLedger` discards it (returns
null), and the "latest" load attempt reports failure with the ledger
never installed (no last-closed switch, no open view). -/
theorem C5_latest_hash_mismatch (env : LoadEnv) (rp : Bool) (l : MLedger)
    (storedHash : Nat) (hlf : env.lastFull = some (l, storedHash))
    (hne : l.info.hash ≠ storedHash) :
    getLastFullLedger env = none
    ∧ loadOldLedger env LedgerID.latest rp
        = (false, [LoadAction.logFatal "No Ledger found from ledgerID"])
    ∧ (∀ h, LoadAction.switchLCL h
        ∉ (loadOldLedger env LedgerID.latest rp).2)
    ∧ (∀ h, LoadAction.openLedgerEmplace h
        ∉ (loadOldLedger env LedgerID.latest rp).2) := by
  have hg : getLastFullLedger env = none := by
    simp [getLastFullLedger, hlf, hne]
  have hload : loadOldLedger env LedgerID.latest rp
      = (false, [LoadAction.logFatal "No Ledger found from ledgerID"]) := by
    simp [loadOldLedger, loadStage1, hg]
  refine ⟨hg, hload, ?_, ?_⟩ <;> intro h <;> rw [hload] <;> simp

/-- A persisted ledger whose recomputed hash (7) differs from its
stored hash column (9), for the C5 witness. -/
def mismatchLedger : MLedger where
  info := { seq := 5, hash := 7, parentHash := 0, accountHash := 1, closeTime := 100, closeFlags := 0 }
  walkOk := true
  sane := true
  txs := []

/-- An environment whose highest-sequence row is the mismatched
ledger. -/
def mismatchEnv : LoadEnv :=
  { lastFull := some (mismatchLedger, 9),
    byHash := fun _ => none,
    checkLocal := fun _ => none,
    byIndex := fun _ => none,
    fileEnv := { parseSLE := fun _ => false, closeTimeNow := 0 },
    mkFileLedger := fun _ => mismatchLedger }

/-- C5 witness: the mismatched-latest environment. -/
theorem C5_latest_hash_mismatch_witness :
    mismatchEnv.lastFull = some (mismatchLedger, 9)
    ∧ mismatchLedger.info.hash ≠ 9
    ∧ (getLastFullLedger mismatchEnv = none
      ∧ loadOldLedger mismatchEnv LedgerID.latest false
          = (false, [LoadAction.logFatal "No Ledger found from ledgerID"])
      ∧ (∀ h, LoadAction.switchLCL h
          ∉ (loadOldLedger mismatchEnv LedgerID.latest false).2)
      ∧ (∀ h, LoadAction.openLedgerEmplace h
          ∉ (loadOldLedger mismatchEnv LedgerID.latest false).2)) :=
  ⟨rfl, by decide,
    C5_latest_hash_mismatch mismatchEnv false mismatchLedger 9 rfl (by decide)⟩

lemma mapEmplace_mem {k v : Nat} :
    ∀ {m : List (Nat × Nat)} {x : Nat × Nat},
      x ∈ mapEmplace k v m → x = (k, v) ∨ x ∈ m := by
  intro m
  induction m with
  | nil => intro x hx; simpa [mapEmplace] using hx
  | cons p rest ih =>
      obtain ⟨k', v'⟩ := p
      intro x hx
      by_cases h1 : k < k'
      · simp only [mapEmplace, if_pos h1] at hx
        rcases List.mem_cons.mp hx with rfl | hx
        · exact Or.inl rfl
        · exact Or.inr hx
      · by_cases h2 : k = k'
        · simp only [mapEmplace, if_neg h1, if_pos h2] at hx
          exact Or.inr hx
        · simp only [mapEmplace, if_neg h1, if_neg h2] at hx
          rcases List.mem_cons.mp hx with rfl | hx
          · exact Or.inr (List.mem_cons_self _ _)
          · rcases ih hx with rfl | hx'
            · exact Or.inl rfl
            · exact Or.inr (List.mem_cons_of_mem _ hx')

lemma mapEmplace_keep {k v : Nat} :
    ∀ {m : List (Nat × Nat)} {x : Nat × Nat}, x ∈ m → x ∈ mapEmplace k v m := by
  intro m
  induction m with
  | nil => intro x hx; cases hx
  | cons p rest ih =>
      obtain ⟨k', v'⟩ := p
      intro x hx
      by_cases h1 : k < k'
      · simp only [mapEmplace, if_pos h1]
        exact List.mem_cons_of_mem _ hx
      · by_cases h2 : k = k'
        · simpa only [mapEmplace, if_neg h1, if_pos h2] using hx
        · simp only [mapEmplace, if_neg h1, if_neg h2, List.mem_cons]
          rcases List.mem_cons.mp hx with rfl | hx'
          · exact Or.inl rfl
          · exact Or.inr (ih hx')

lemma mapEmplace_self {k v : Nat} :
    ∀ {m : List (Nat × Nat)}, (∀ p ∈ m, p.1 ≠ k) → (k, v) ∈ mapEmplace k v m := by
  intro m
  induction m with
  | nil => intro _; simp [mapEmplace]
  | cons p rest ih =>
      obtain ⟨k', v'⟩ := p
      intro hne
      by_cases h1 : k < k'
      · simp [mapEmplace, if_pos h1]
      · by_cases h2 : k = k'
        · exact absurd h2.symm (hne (k', v') (List.mem_cons_self _ _))
        · simp only [mapEmplace, if_neg h1, if_neg h2, List.mem_cons]
          exact Or.inr (ih fun p hp => hne p (List.mem_cons_of_mem _ hp))

lemma mapEmplace_pairwise {k v : Nat} :
    ∀ {m : List (Nat × Nat)}, m.Pairwise (fun a b => a.1 < b.1) →
      (mapEmplace k v m).Pairwise (fun a b => a.1 < b.1) := by
  intro m
  induction m with
  | nil => intro _; simp [mapEmplace]
  | cons p rest ih =>
      obtain ⟨k', v'⟩ := p
      intro hm
      rw [List.pairwise_cons] at hm
      obtain ⟨hhead, hrest⟩ := hm
      by_cases h1 : k < k'
      · simp only [mapEmplace, if_pos h1]
        rw [List.pairwise_cons]
        refine ⟨?_, List.pairwise_cons.mpr ⟨hhead, hrest⟩⟩
        intro x hx
        rcases List.mem_cons.mp hx with rfl | hx'
        · exact h1
        · exact lt_trans h1 (hhead x hx')
      · by_cases h2 : k = k'
        · simp only [mapEmplace, if_neg h1, if_pos h2]
          exact List.pairwise_cons.mpr ⟨hhead, hrest⟩
        · have hk : k' < k := by omega
          simp only [mapEmplace, if_neg h1, if_neg h2]
          rw [List.pairwise_cons]
          refine ⟨?_, ih hrest⟩
          intro x hx
          rcases mapEmplace_mem hx with rfl | hx'
          · exact hk
          · exact hhead x hx'

lemma foldl_emplace_pairwise (txs : List MTx) :
    ∀ (m : List (Nat × Nat)), m.Pairwise (fun a b => a.1 < b.1) →
      (txs.foldl (fun m tx => mapEmplace tx.txIndex tx.txID m) m).Pairwise
        (fun a b => a.1 < b.1) := by
  induction txs with
  | nil => intro m hm; exact hm
  | cons t ts ih => intro m hm; exact ih _ (mapEmplace_pairwise hm)

lemma foldl_emplace_keep (txs : List MTx) :
    ∀ (m : List (Nat × Nat)) (x : Nat × Nat), x ∈ m →
      x ∈ txs.foldl (fun m tx => mapEmplace tx.txIndex tx.txID m) m := by
  induction txs with
  | nil => intro m x hx; exact hx
  | cons t ts ih => intro m x hx; exact ih _ _ (mapEmplace_keep hx)

lemma foldl_emplace_mem (txs : List MTx) :
    ∀ (m : List (Nat × Nat)) (tx : MTx), tx ∈ txs →
      (txs.map MTx.txIndex).Nodup →
      (∀ p ∈ m, p.1 ∉ txs.map MTx.txIndex) →
      (tx.txIndex, tx.txID)
        ∈ txs.foldl (fun m tx => mapEmplace tx.txIndex tx.txID m) m := by
  induction txs with
  | nil => intro m tx htx; cases htx
  | cons t ts ih =>
      intro m tx htx hnodup hm
      simp only [List.map_cons, List.nodup_cons] at hnodup
      simp only [List.foldl_cons]
      rcases List.mem_cons.mp htx with rfl | htx'
      · apply foldl_emplace_keep
        apply mapEmplace_self
        intro p hp hpk
        exact hm p hp (by simp [hpk])
      · apply ih _ tx htx' hnodup.2
        intro p hp
        rcases mapEmplace_mem hp with rfl | hp'
        · simpa using hnodup.1
        · intro hin
          exact hm p hp' (by simp [hin])

lemma replayTxActs_aux_mono (txs : List MTx) :
    ∀ (acc : List LoadAction) (a : LoadAction), a ∈ acc →
      a ∈ txs.foldl
        (fun acc tx =>
          acc ++ [LoadAction.forceValidity tx.txID, LoadAction.rawTxInsert tx.txID])
        acc := by
  induction txs with
  | nil => intro acc a ha; exact ha
  | cons t ts ih => intro acc a ha; exact ih _ _ (by simp [ha])

lemma mem_replayTxActs_aux (txs : List MTx) :
    ∀ (acc : List LoadAction) (tx : MTx), tx ∈ txs →
      LoadAction.forceValidity tx.txID
        ∈ txs.foldl
            (fun acc tx =>
              acc ++ [LoadAction.forceValidity tx.txID, LoadAction.rawTxInsert tx.txID])
            acc := by
  induction txs with
  | nil => intro acc tx htx; cases htx
  | cons t ts ih =>
      intro acc tx htx
      rcases List.mem_cons.mp htx with rfl | htx'
      · exact replayTxActs_aux_mono ts _ _ (by simp)
      · exact ih _ _ htx'

lemma replayTxActs_shape (txs : List MTx) :
    ∀ (acc : List LoadAction) (a : LoadAction),
      a ∈ txs.foldl
        (fun acc tx =>
          acc ++ [LoadAction.forceValidity tx.txID, LoadAction.rawTxInsert tx.txID])
        acc →
      a ∈ acc ∨ (∃ t, a = LoadAction.forceValidity t)
        ∨ ∃ t, a = LoadAction.rawTxInsert t := by
  induction txs with
  | nil => intro acc a ha; exact Or.inl ha
  | cons t ts ih =>
      intro acc a ha
      rcases ih _ a ha with h | h | h
      · rcases List.mem_append.mp h with h' | h'
        · exact Or.inl h'
        · rcases List.mem_cons.mp h' with rfl | h''
          · exact Or.inr (Or.inl ⟨t.txID, rfl⟩)
          · rcases List.mem_cons.mp h'' with rfl | h3
            · exact Or.inr (Or.inr ⟨t.txID, rfl⟩)
            · cases h3
      · exact Or.inr (Or.inl h)
      · exact Or.inr (Or.inr h)

lemma loadStage1_error (env : LoadEnv) (lid : LedgerID) (acts : List LoadAction)
    (h : loadStage1 env lid = Except.error acts) :
    acts = [LoadAction.logFatal "Ledger specified is not valid"] := by
  cases lid with
  | file doc =>
      simp only [loadStage1] at h
      cases hf : loadFromFile env.fileEnv doc <;> rw [hf] at h <;> simp_all
  | latest => simp only [loadStage1] at h; simp_all
  | viaHash hh =>
      simp only [loadStage1] at h
      cases hb : env.byHash hh <;> rw [hb] at h <;> simp_all
  | viaSeq n => simp only [loadStage1] at h; simp_all

/-- C6: whenever a replay load hands a package downstream
(`takeReplay`), the package's transaction mapping is keyed by original
in-ledger transaction index in strictly ascending order; it contains
every transaction of the replayed ledger under its original index
(indices being distinct in a ledger); and every transaction was marked
signature-verified-only (`forceValidity`, `Validity::SigGoodOnly`)
strictly before the package was handed downstream. -/
theorem C6_replay_package_order (env : LoadEnv) (lid : LedgerID)
    (pkg : ReplayPkg)
    (hmem : LoadAction.takeReplay pkg ∈ (loadOldLedger env lid true).2)
    (hnodup : (pkg.prevLedger.txs.map MTx.txIndex).Nodup) :
    pkg.txns.Pairwise (fun a b => a.1 < b.1)
    ∧ (∀ tx ∈ pkg.prevLedger.txs, (tx.txIndex, tx.txID) ∈ pkg.txns)
    ∧ ∃ pre, (loadOldLedger env lid true).2 = pre ++ [LoadAction.takeReplay pkg]
        ∧ ∀ tx ∈ pkg.prevLedger.txs, LoadAction.forceValidity tx.txID ∈ pre := by
  cases h1 : loadStage1 env lid with
  | error acts =>
      simp only [loadOldLedger, h1] at hmem
      rw [loadStage1_error env lid acts h1] at hmem
      simp at hmem
  | ok r =>
    obtain ⟨opt, acts0⟩ := r
    have hacts := loadStage1_acts env lid opt acts0 h1
    have hacts0 : LoadAction.takeReplay pkg ∉ acts0 := by
      rcases hacts with rfl | rfl <;> simp
    cases opt with
    | none =>
        simp only [loadOldLedger, h1] at hmem
        rcases List.mem_append.mp hmem with h | h
        · exact absurd h hacts0
        · simp at h
    | some l0 =>
      cases h2 : loadStage2 env true l0 with
      | none =>
          simp only [loadOldLedger, h1, h2] at hmem
          rcases List.mem_append.mp hmem with h | h
          · exact absurd h hacts0
          · simp at h
      | some pr =>
        obtain ⟨lled, orl⟩ := pr
        simp only [loadOldLedger, h1, h2] at hmem
        by_cases ha : lled.info.accountHash = 0
        · rw [if_pos ha] at hmem
          rcases List.mem_append.mp hmem with h | h
          · exact absurd h hacts0
          · simp at h
        · rw [if_neg ha] at hmem
          by_cases hw : lled.walkOk = false
          · rw [if_pos hw] at hmem
            rcases List.mem_append.mp hmem with h | h
            · exact absurd h hacts0
            · simp at h
          · rw [if_neg hw] at hmem
            by_cases hs : lled.sane = false
            · rw [if_pos hs] at hmem
              rcases List.mem_append.mp hmem with h | h
              · exact absurd h hacts0
              · simp at h
            · rw [if_neg hs] at hmem
              cases orl with
              | none =>
                  rcases List.mem_append.mp hmem with hmem' | hmem'
                  · exact absurd hmem' hacts0
                  · simp [installActs] at hmem'
              | some rl =>
                  have hpkg : pkg = buildReplayPkg rl := by
                    rcases List.mem_append.mp hmem with hmem' | hmem'
                    · rcases List.mem_append.mp hmem' with h3 | h3
                      · rcases List.mem_append.mp h3 with h4 | h4
                        · exact absurd h4 hacts0
                        · simp [installActs] at h4
                      · rcases replayTxActs_shape rl.txs [] _ h3 with h4 | h4 | h4
                        · cases h4
                        · obtain ⟨t, ht⟩ := h4; cases ht
                        · obtain ⟨t, ht⟩ := h4; cases ht
                    · rcases List.mem_cons.mp hmem' with h3 | h3
                      · exact (LoadAction.takeReplay.injEq _ _).mp h3
                      · cases h3
                  subst hpkg
                  refine ⟨?_, ?_, ?_⟩
                  · exact foldl_emplace_pairwise rl.txs [] (by simp)
                  · intro tx htx
                    exact foldl_emplace_mem rl.txs [] tx htx hnodup
                      (fun p hp => by cases hp)
                  · refine ⟨acts0 ++ installActs lled ++ replayTxActs rl.txs, ?_, ?_⟩
                    · simp only [loadOldLedger, h1, h2, if_neg ha, if_neg hw,
                        if_neg hs]
                    · intro tx htx
                      have hfv : LoadAction.forceValidity tx.txID
                          ∈ replayTxActs rl.txs :=
                        mem_replayTxActs_aux rl.txs [] tx htx
                      simp [hfv]

/-- Designated ledger for the C6 witness: three transactions at
original in-ledger indices [3, 1, 2], in transaction-map iteration
order. -/
def replayDesignated : MLedger where
  info := { seq := 9, hash := 21, parentHash := 22, accountHash := 5, closeTime := 77, closeFlags := 1 }
  walkOk := true
  sane := true
  txs := [⟨10, 3⟩, ⟨11, 1⟩, ⟨12, 2⟩]

/-- Parent of the designated ledger (hash 22), passing the gate. -/
def replayParent : MLedger where
  info := { seq := 8, hash := 22, parentHash := 23, accountHash := 6, closeTime := 70, closeFlags := 0 }
  walkOk := true
  sane := true
  txs := []

/-- Environment resolving sequence 9 to the designated ledger and hash
22 to its parent. -/
def replayEnv : LoadEnv where
  lastFull := none
  byHash := fun h => if h = 22 then some replayParent else none
  checkLocal := fun _ => none
  byIndex := fun n => if n = 9 then some replayDesignated else none
  fileEnv := { parseSLE := fun _ => false, closeTimeNow := 0 }
  mkFileLedger := fun _ => replayParent

/-- The package the witness replay produces: indices [3, 1, 2] iterate
as [1, 2, 3]. -/
def replayPkg0 : ReplayPkg where
  prevLedger := replayDesignated
  closeTime := 77
  closeFlags := 1
  txns := [(1, 11), (2, 12), (3, 10)]

/-- C6 witness: the spec's example — transactions at original indices
[3, 1, 2] iterate in the package as [1, 2, 3]. -/
theorem C6_replay_package_order_witness :
    LoadAction.takeReplay replayPkg0
        ∈ (loadOldLedger replayEnv (LedgerID.viaSeq 9) true).2
    ∧ (replayPkg0.prevLedger.txs.map MTx.txIndex).Nodup
    ∧ (replayPkg0.txns.Pairwise (fun a b => a.1 < b.1)
      ∧ (∀ tx ∈ replayPkg0.prevLedger.txs,
          (tx.txIndex, tx.txID) ∈ replayPkg0.txns)
      ∧ ∃ pre, (loadOldLedger replayEnv (LedgerID.viaSeq 9) true).2
            = pre ++ [LoadAction.takeReplay replayPkg0]
          ∧ ∀ tx ∈ replayPkg0.prevLedger.txs,
              LoadAction.forceValidity tx.txID ∈ pre) :=
  ⟨by decide, by decide,
    C6_replay_package_order replayEnv (LedgerID.viaSeq 9) replayPkg0
      (by decide) (by decide)⟩

lemma loadEntriesStep_invalid (p : Json → Bool) (st : EntryLoop) (e : Json)
    (hbad : entryValid p e = false) :
    loadEntriesStep p st e = { st with invalidWarns := st.invalidWarns + 1 } := by
  simp [loadEntriesStep, hbad]

lemma loadEntriesStep_shift (p : Json → Bool) (st : EntryLoop) (e : Json)
    (k : Nat) :
    loadEntriesStep p { st with invalidWarns := st.invalidWarns + k } e
      = { loadEntriesStep p st e with
          invalidWarns := (loadEntriesStep p st e).invalidWarns + k } := by
  unfold loadEntriesStep
  by_cases hv : entryValid p e = true
  · by_cases hd : (st.entries.any fun q => q.1 = entryIndexVal e) = true
    · simp [hv, hd]
    · simp [hv, hd]
  · simp [hv, Nat.add_right_comm]

lemma loadEntries_shift (p : Json → Bool) :
    ∀ (ys : List Json) (st : EntryLoop) (k : Nat),
      ys.foldl (loadEntriesStep p) { st with invalidWarns := st.invalidWarns + k }
        = { ys.foldl (loadEntriesStep p) st with
            invalidWarns := (ys.foldl (loadEntriesStep p) st).invalidWarns + k } := by
  intro ys
  induction ys with
  | nil => intro st k; rfl
  | cons e ys ih =>
      intro st k
      simp only [List.foldl_cons, loadEntriesStep_shift]
      exact ih (loadEntriesStep p st e) k

lemma loadEntries_skip (p : Json → Bool) (xs ys : List Json) (bad : Json)
    (hbad : entryValid p bad = false) :
    loadEntries p (xs ++ bad :: ys)
      = { loadEntries p (xs ++ ys) with
          invalidWarns := (loadEntries p (xs ++ ys)).invalidWarns + 1 } := by
  unfold loadEntries
  rw [List.foldl_append, List.foldl_cons,
    loadEntriesStep_invalid p _ bad hbad, List.foldl_append]
  exact loadEntries_shift p ys (xs.foldl (loadEntriesStep p) ⟨[], 0, 0⟩) 1

lemma unwrapLedgerJson_self (j : Json)
    (hr : j.isMember "result" = false) (hl : j.isMember "ledger" = false) :
    unwrapLedgerJson j = j := by
  unfold unwrapLedgerJson
  simp [hr, hl]

lemma loadFromFile_congr (env : FileEnv) (d1 d2 : Json)
    (h : unwrapLedgerJson d1 = unwrapLedgerJson d2) :
    loadFromFile env d1 = loadFromFile env d2 := by
  unfold loadFromFile
  rw [h]

lemma loadFromFile_defaults (env : FileEnv) (j : Json)
    (hu : unwrapLedgerJson j = j)
    (hseq : j.isMember "ledger_index" = false)
    (hres : j.isMember "close_time_resolution" = false) :
    ∀ fl, loadFromFile env j = FileLoadOutcome.ok fl →
      fl.seq = 1 ∧ fl.closeTimeResolution = 30 := by
  intro fl h
  unfold loadFromFile at h
  rw [hu] at h
  by_cases hac : j.isMember "accountState" = true
  · simp only [hac, if_true, hseq, hres, Bool.false_eq_true, if_false] at h
    unfold buildFromEntryArr at h
    split at h
    · split at h
      · cases h
        exact ⟨rfl, rfl⟩
      · cases h
    · cases h
  · simp only [Bool.not_eq_true] at hac
    simp only [hac, Bool.false_eq_true, if_false] at h
    unfold buildFromEntryArr at h
    split at h
    · cases h
      exact ⟨rfl, rfl⟩
    · cases h

/-- C7: the file branch unwraps "result"/"ledger" wrappers; when an
accountState document omits `ledger_index` or `close_time_resolution`
the defaults 1 and 30 are used (close time defaulting to the time
source's value, estimated to false, supplies to zero); and an entry
failing to parse or carrying a zero index is skipped with one warning
while all other entries install and the load still succeeds. -/
theorem C7_file_parse_tolerance (env : FileEnv) (inner bad : Json)
    (xs ys : List Json)
    (hr : inner.isMember "result" = false)
    (hl : inner.isMember "ledger" = false)
    (hseq : inner.isMember "ledger_index" = false)
    (hres : inner.isMember "close_time_resolution" = false)
    (hbad : entryValid env.parseSLE bad = false) :
    loadFromFile env (Json.obj [("result", Json.obj [("ledger", inner)])])
        = loadFromFile env inner
    ∧ (∀ fl, loadFromFile env inner = FileLoadOutcome.ok fl →
        fl.seq = 1 ∧ fl.closeTimeResolution = 30)
    ∧ loadFromFile env (Json.obj [("accountState", Json.arr (xs ++ bad :: ys))])
        = FileLoadOutcome.ok
            { seq := 1, closeTime := env.closeTimeNow,
              closeTimeResolution := 30, closeTimeEstimated := false,
              totalDrops := 0, totalDropsVBC := 0,
              loopResult :=
                { loadEntries env.parseSLE (xs ++ ys) with
                  invalidWarns :=
                    (loadEntries env.parseSLE (xs ++ ys)).invalidWarns + 1 } } := by
  refine ⟨?_,
    loadFromFile_defaults env inner (unwrapLedgerJson_self inner hr hl) hseq hres,
    ?_⟩
  · exact loadFromFile_congr env _ inner (unwrapLedgerJson_self inner hr hl).symm
  · have h3 : loadFromFile env
        (Json.obj [("accountState", Json.arr (xs ++ bad :: ys))])
        = FileLoadOutcome.ok
            { seq := 1, closeTime := env.closeTimeNow,
              closeTimeResolution := 30, closeTimeEstimated := false,
              totalDrops := 0, totalDropsVBC := 0,
              loopResult := loadEntries env.parseSLE (xs ++ bad :: ys) } := rfl
    rw [h3, loadEntries_skip env.parseSLE xs ys bad hbad]

/-- File environment for the C7 witness: an entry parses when its body
has an "sle" member. -/
def fileEnv0 : FileEnv where
  parseSLE := fun e => e.isMember "sle"
  closeTimeNow := 1000

/-- An unwrapped document with an empty accountState array and no
metadata keys. -/
def innerDoc0 : Json := Json.obj [("accountState", Json.arr [])]

/-- A valid entry at hexadecimal index A1. -/
def goodEntry1 : Json := Json.obj [("index", Json.str "A1"), ("sle", Json.num 1)]

/-- A valid entry at hexadecimal index B2. -/
def goodEntry2 : Json := Json.obj [("index", Json.str "B2"), ("sle", Json.num 2)]

/-- A malformed entry: no "index" member, so its parsed index is
zero. -/
def badEntry0 : Json := Json.obj [("sle", Json.num 3)]

/-- C7 witness: a dump with one entry missing its index loads with the
two valid entries installed and one skip warning. -/
theorem C7_file_parse_tolerance_witness :
    innerDoc0.isMember "result" = false
    ∧ innerDoc0.isMember "ledger" = false
    ∧ innerDoc0.isMember "ledger_index" = false
    ∧ innerDoc0.isMember "close_time_resolution" = false
    ∧ entryValid fileEnv0.parseSLE badEntry0 = false
    ∧ (loadFromFile fileEnv0
          (Json.obj [("result", Json.obj [("ledger", innerDoc0)])])
        = loadFromFile fileEnv0 innerDoc0
      ∧ (∀ fl, loadFromFile fileEnv0 innerDoc0 = FileLoadOutcome.ok fl →
          fl.seq = 1 ∧ fl.closeTimeResolution = 30)
      ∧ loadFromFile fileEnv0
            (Json.obj [("accountState",
              Json.arr ([goodEntry1] ++ badEntry0 :: [goodEntry2]))])
          = FileLoadOutcome.ok
              { seq := 1, closeTime := fileEnv0.closeTimeNow,
                closeTimeResolution := 30, closeTimeEstimated := false,
                totalDrops := 0, totalDropsVBC := 0,
                loopResult :=
                  { loadEntries fileEnv0.parseSLE ([goodEntry1] ++ [goodEntry2]) with
                    invalidWarns :=
                      (loadEntries fileEnv0.parseSLE
                        ([goodEntry1] ++ [goodEntry2])).invalidWarns + 1 } }) :=
  ⟨rfl, rfl, rfl, rfl, rfl,
    C7_file_parse_tolerance fileEnv0 innerDoc0 badEntry0 [goodEntry1] [goodEntry2]
      rfl rfl rfl rfl rfl⟩

/-- C10: when the unwrapped document has no "accountState" member, the
document itself is treated as the entry array with every metadata
default in force (close time defaulting to the time source's value);
if it is not an array, the attempt is fatal — `loadOldLedger` returns
false having produced only the two fatal logs, and no ledger is
constructed or installed from the file. -/
theorem C10_doc_is_entry_array (env : LoadEnv) (doc : Json) (rp : Bool)
    (hac : (unwrapLedgerJson doc).isMember "accountState" = false) :
    (∀ items, unwrapLedgerJson doc = Json.arr items →
      loadFromFile env.fileEnv doc
        = FileLoadOutcome.ok
            { seq := 1, closeTime := env.fileEnv.closeTimeNow,
              closeTimeResolution := 30, closeTimeEstimated := false,
              totalDrops := 0, totalDropsVBC := 0,
              loopResult := loadEntries env.fileEnv.parseSLE items })
    ∧ ((unwrapLedgerJson doc).isArray = false →
        loadFromFile env.fileEnv doc = FileLoadOutcome.notArray
        ∧ loadOldLedger env (LedgerID.file doc) rp
            = (false, [LoadAction.logFatal "State nodes must be an array",
                LoadAction.logFatal "No Ledger found from ledgerID"])
        ∧ (∀ h, LoadAction.switchLCL h
            ∉ (loadOldLedger env (LedgerID.file doc) rp).2)) := by
  constructor
  · intro items hitems
    unfold loadFromFile
    simp only [hac, Bool.false_eq_true, if_false]
    rw [hitems]
    rfl
  · intro hna
    have hnf : loadFromFile env.fileEnv doc = FileLoadOutcome.notArray := by
      unfold loadFromFile
      simp only [hac, Bool.false_eq_true, if_false]
      unfold buildFromEntryArr
      cases hj : unwrapLedgerJson doc <;> simp_all [Json.isArray]
    have hload : loadOldLedger env (LedgerID.file doc) rp
        = (false, [LoadAction.logFatal "State nodes must be an array",
            LoadAction.logFatal "No Ledger found from ledgerID"]) := by
      simp [loadOldLedger, loadStage1, hnf]
    refine ⟨hnf, hload, ?_⟩
    intro h
    rw [hload]
    simp

/-- A document that is neither an array nor carries an accountState
member, for the C10 witness. -/
def plainDoc0 : Json := Json.obj [("foo", Json.num 1)]

/-- C10 witness: loading `plainDoc0` as a file is fatal and installs
nothing. -/
theorem C10_doc_is_entry_array_witness :
    (unwrapLedgerJson plainDoc0).isMember "accountState" = false
    ∧ ((∀ items, unwrapLedgerJson plainDoc0 = Json.arr items →
        loadFromFile mismatchEnv.fileEnv plainDoc0
          = FileLoadOutcome.ok
              { seq := 1, closeTime := mismatchEnv.fileEnv.closeTimeNow,
                closeTimeResolution := 30, closeTimeEstimated := false,
                totalDrops := 0, totalDropsVBC := 0,
                loopResult := loadEntries mismatchEnv.fileEnv.parseSLE items })
      ∧ ((unwrapLedgerJson plainDoc0).isArray = false →
          loadFromFile mismatchEnv.fileEnv plainDoc0 = FileLoadOutcome.notArray
          ∧ loadOldLedger mismatchEnv (LedgerID.file plainDoc0) false
              = (false, [LoadAction.logFatal "State nodes must be an array",
                  LoadAction.logFatal "No Ledger found from ledgerID"])
          ∧ (∀ h, LoadAction.switchLCL h
              ∉ (loadOldLedger mismatchEnv (LedgerID.file plainDoc0) false).2))) :=
  ⟨rfl, C10_doc_is_entry_array mismatchEnv plainDoc0 false rfl⟩

end Radard
